import Mathlib

/-!
Verification of the nutcracker LED-matrix repository.

The repository drives an 8-row by 32-column WS2812B LED matrix (256 pixels)
and generates JSON light-show documents.  This file embeds the Python
source shallowly in Lean: pure helpers become Lean functions, the stateful
LED driver becomes explicit state passing on a driver record, and the
generator scripts' frame-building loops become structural recursions.
Machine integers are modelled with Int (Python integers are unbounded).
-/

namespace Nutcracker

/-! ## Geometry mappers

Three generator scripts define the same serpentine coordinate mapper;
two other files use a plain row-major mapping.  Each is embedded in a
namespace named after its source file. -/

namespace CreateMerryChristmasScrolling

/-- Function `xy_to_led` from `src/create_merry_christmas_scrolling.py`
(defaults `width=32`, `height=8` inlined; every call site uses them).
Returns `none` for out-of-range coordinates, mirroring Python's `None`. -/
def xy_to_led (x y : Int) : Option Int :=
  if x < 0 ∨ 32 ≤ x ∨ y < 0 ∨ 8 ≤ y then none
  else if x % 2 = 0 then some (x * 8 + y)
  else some (x * 8 + (8 - 1 - y))

end CreateMerryChristmasScrolling

namespace CreateWizardsLightshow

/-- Function `xy_to_led` from `src/scripts/create_wizards_lightshow.py`
lines 15-22 (`WIDTH = 32`, `HEIGHT = 8` inlined).  Returns `-1` for
out-of-range coordinates. -/
def xy_to_led (x y : Int) : Int :=
  if x < 0 ∨ 32 ≤ x ∨ y < 0 ∨ 8 ≤ y then -1
  else if x % 2 = 0 then x * 8 + y
  else x * 8 + (8 - 1 - y)

end CreateWizardsLightshow

namespace CreateWizardsV5Bold

/-- Function `xy_to_led` from `src/scripts/create_wizards_v5_bold.py`
(`WIDTH = 32`, `HEIGHT = 8` inlined).  Returns `-1` for out-of-range
coordinates. -/
def xy_to_led (x y : Int) : Int :=
  if x < 0 ∨ 32 ≤ x ∨ y < 0 ∨ 8 ≤ y then -1
  else if x % 2 = 0 then x * 8 + y
  else x * 8 + (8 - 1 - y)

end CreateWizardsV5Bold

namespace AnalyzePattern

/-- Function `led_to_xy` from `src/analyze_pattern.py`:
`row = led // 32; col = led % 32; return (col, row)`.
Lean's `/` and `%` on `Int` are Euclidean division, which agrees with
Python's floor division and modulo for the positive divisor 32. -/
def led_to_xy (led : Int) : Int × Int :=
  (led % 32, led / 32)

end AnalyzePattern

namespace LedMatrixTest

/-- The index formula `pixel_index = row * 32 + col` used throughout the
row and column loops of `test_basic_display` and `test_patterns` in
`src/led_matrix_test.py`. -/
def pixel_index (row col : Int) : Int :=
  row * 32 + col

end LedMatrixTest

namespace CreateScrollingText

/-- Function `bitmap_to_leds` from `src/scripts/create_scrolling_text.py`
(defaults `width=32`, `start_row=1` inlined; every call site uses them).
For each `'1'` cell it emits the row-major index `row * 32 + display_col`,
then returns the sorted list. -/
def bitmap_to_leds (lines : List String) (offset : Int) : List Int :=
  let leds := lines.enum.flatMap (fun rowp =>
    let row : Int := 1 + (rowp.1 : Int)
    rowp.2.toList.enum.filterMap (fun colp =>
      if colp.2 = '1' then
        let display_col : Int := (colp.1 : Int) - offset
        if 0 ≤ display_col ∧ display_col < 32 then
          some (row * 32 + display_col)
        else none
      else none))
  leds.mergeSort (fun a b => decide (a ≤ b))

end CreateScrollingText

namespace LedDriverScript

/-- RGB color triple.  Python integers are unbounded, hence `Int`. -/
abbrev Color := Int × Int × Int

/-- One element of the `pixels` array of a `set_pixels` command in
`src/scripts/led_driver.py`.  Every field is read with `.get` and may be
absent, hence `Option`. -/
structure PixelEntry where
  index : Option Int
  r : Option Int
  g : Option Int
  b : Option Int
deriving DecidableEq

/-- A parsed JSON command object as consumed by
`LedDriver.process_command`.  Every field is read with `.get`. -/
structure Cmd where
  command : Option String
  index : Option Int
  r : Option Int
  g : Option Int
  b : Option Int
  pixels : Option (List PixelEntry)
deriving DecidableEq

/-- A response dictionary: the `status` field plus the optional fields
the driver emits (`command`, `count`, `message`). -/
structure Resp where
  status : String
  command : Option String
  count : Option Nat
  message : Option String
deriving DecidableEq

/-- State of class `LedDriver`: the LED count and the NeoPixel buffer,
modelled as the list of colors it holds (`show` does not change it). -/
structure LedDriver where
  num_leds : Nat
  pixels : List Color
deriving DecidableEq

/-- The `{"status": "ok", "command": ...}` response shared by the
success branches of `process_command`. -/
def okResp (cmd : String) : Resp :=
  ⟨"ok", some cmd, none, none⟩

/-- Method `clear_all` (lines 25-28): `self.pixels.fill((0, 0, 0))`
followed by `show`. -/
def LedDriver.clear_all (d : LedDriver) : LedDriver :=
  { d with pixels := d.pixels.map (fun _ => ((0 : Int), (0 : Int), (0 : Int))) }

/-- Method `set_pixel` (lines 30-33): write `(r, g, b)` at `index` when
`0 <= index < self.num_leds`, otherwise do nothing. -/
def LedDriver.set_pixel (d : LedDriver) (index r g b : Int) : LedDriver :=
  if 0 ≤ index ∧ index < (d.num_leds : Int) then
    { d with pixels := d.pixels.set index.toNat (r, g, b) }
  else d

/-- The color an entry of `set_pixels` writes:
`(pixel.get('r', 0), pixel.get('g', 0), pixel.get('b', 0))`. -/
def entryColor (e : PixelEntry) : Color :=
  (e.r.getD 0, e.g.getD 0, e.b.getD 0)

/-- Method `set_pixels` (lines 35-44): for each entry in list order, let
`idx = pixel.get('index', -1)` and write its color when
`0 <= idx < self.num_leds`; the loop is rendered as structural recursion
over the entry list. -/
def LedDriver.set_pixels (d : LedDriver) : List PixelEntry → LedDriver
  | [] => d
  | e :: rest =>
      let idx := e.index.getD (-1)
      let d' := if 0 ≤ idx ∧ idx < (d.num_leds : Int) then
          { d with pixels := d.pixels.set idx.toNat (entryColor e) }
        else d
      d'.set_pixels rest

/-- Method `fill_all` (lines 46-48): `self.pixels.fill((r, g, b))`. -/
def LedDriver.fill_all (d : LedDriver) (r g b : Int) : LedDriver :=
  { d with pixels := d.pixels.map (fun _ => (r, g, b)) }

/-- How Python renders `cmd_type` inside the f-string
`f"Unknown command: {cmd_type}"`: the string itself, or `None`. -/
def cmdTypeStr : Option String → String
  | some s => s
  | none => "None"

/-- Method `process_command` (lines 54-91): dispatch on the `command`
field; unknown commands produce the error response. -/
def LedDriver.process_command (d : LedDriver) (c : Cmd) : LedDriver × Resp :=
  if c.command = some "clear" then
    (d.clear_all, okResp "clear")
  else if c.command = some "set_pixel" then
    (d.set_pixel (c.index.getD 0) (c.r.getD 0) (c.g.getD 0) (c.b.getD 0),
      okResp "set_pixel")
  else if c.command = some "set_pixels" then
    (d.set_pixels (c.pixels.getD []),
      ⟨"ok", some "set_pixels", some (c.pixels.getD []).length, none⟩)
  else if c.command = some "fill" then
    (d.fill_all (c.r.getD 0) (c.g.getD 0) (c.b.getD 0), okResp "fill")
  else if c.command = some "show" then
    (d, okResp "show")
  else if c.command = some "ping" then
    (d, okResp "ping")
  else
    (d, ⟨"error", none, none, some ("Unknown command: " ++ cmdTypeStr c.command)⟩)

/-- One stripped input line as the `main` loop classifies it: empty,
not valid JSON (carrying the decode-error text), or a parsed command
object.  The JSON parser itself is external to this model. -/
inductive Line where
  | blank : Line
  | malformed (err : String) : Line
  | parsed (c : Cmd) : Line

/-- The `{"status": "error", "message": "Invalid JSON: ..."}` response
of the `json.JSONDecodeError` handler (line 121). -/
def invalidJsonResp (err : String) : Resp :=
  ⟨"error", none, none, some ("Invalid JSON: " ++ err)⟩

/-- The stdin loop of `main` (lines 110-123): skip blank lines, report
invalid JSON and continue with the next line, otherwise process the
command and emit its response.  Returns the emitted responses and the
final driver state. -/
def mainLoop (d : LedDriver) : List Line → List Resp × LedDriver
  | [] => ([], d)
  | Line.blank :: rest => mainLoop d rest
  | Line.malformed err :: rest =>
      let out := mainLoop d rest
      (invalidJsonResp err :: out.1, out.2)
  | Line.parsed c :: rest =>
      let pr := d.process_command c
      let out := mainLoop pr.1 rest
      (pr.2 :: out.1, out.2)

/-- The command names `process_command` answers with status `"ok"`. -/
def knownCommands : List (Option String) :=
  [some "clear", some "set_pixel", some "set_pixels",
   some "fill", some "show", some "ping"]

/-- The entry among `entries` that determines the final value of slot
`i`: the last entry (in list order) whose `index` field selects `i`. -/
def lastWrite (entries : List PixelEntry) (i : Nat) : Option PixelEntry :=
  entries.reverse.find? (fun e => decide (e.index.getD (-1) = (i : Int)))

end LedDriverScript

/-- One element of a show document's `frames` array: timestamp, effect
name, optional color, optional led-index list. -/
structure Frame where
  timestampMs : Nat
  effect : String
  color : Option String
  leds : Option (List Int)
deriving DecidableEq

namespace CreateMerryChristmasScrolling

/-- The `FONT_3x5` dictionary of `src/create_merry_christmas_scrolling.py`:
3x5 glyphs for the letters of "MERRY CHRISTMAS" plus space. -/
def FONT_3x5 (c : Char) : Option (List String) :=
  if c = 'M' then some ["101", "111", "101", "101", "101"]
  else if c = 'E' then some ["111", "100", "110", "100", "111"]
  else if c = 'R' then some ["110", "101", "110", "101", "101"]
  else if c = 'Y' then some ["101", "101", "010", "010", "010"]
  else if c = 'C' then some ["111", "100", "100", "100", "111"]
  else if c = 'H' then some ["101", "101", "111", "101", "101"]
  else if c = 'I' then some ["111", "010", "010", "010", "111"]
  else if c = 'S' then some ["111", "100", "111", "001", "111"]
  else if c = 'T' then some ["111", "010", "010", "010", "010"]
  else if c = 'A' then some ["010", "101", "111", "101", "101"]
  else if c = ' ' then some ["   ", "   ", "   ", "   ", "   "]
  else none

/-- The loop body of `create_text_bitmap`: append each known glyph's
rows to the five accumulated lines, with a one-column space between
letters (only when another character follows, `i < len(text) - 1`). -/
def create_text_bitmap_aux : List Char → List String → List String
  | [], lines => lines
  | c :: rest, lines =>
      match FONT_3x5 c.toUpper with
      | some letter =>
          create_text_bitmap_aux rest
            (List.zipWith
              (fun l r => l ++ r ++ (if rest.isEmpty then "" else " "))
              lines letter)
      | none => create_text_bitmap_aux rest lines

/-- Function `create_text_bitmap` (lines 96-107). -/
def create_text_bitmap (text : String) : List String :=
  create_text_bitmap_aux text.toList ["", "", "", "", ""]

/-- Function `bitmap_to_led_indices` (lines 109-124), with the default
`start_row = 1` inlined: for each `'1'` cell visible at column
`x = col_idx - x_offset` it appends `xy_to_led x (1 + row_idx)` when that
is not `None`, and returns the sorted list. -/
def bitmap_to_led_indices (lines : List String) (x_offset : Int) : List Int :=
  (lines.enum.flatMap (fun rowp =>
    let y : Int := 1 + (rowp.1 : Int)
    rowp.2.toList.enum.filterMap (fun colp =>
      if colp.2 = '1' then
        let x : Int := (colp.1 : Int) - x_offset
        if 0 ≤ x ∧ x < 32 then xy_to_led x y else none
      else none))).mergeSort (fun a b => decide (a ≤ b))

/-- Function `get_border_leds` (lines 126-130): the sorted non-`None`
values of `xy_to_led x 0` and `xy_to_led x 7` for `x` in `range(32)`. -/
def get_border_leds : List Int :=
  (((List.range 32).map (fun x => xy_to_led (x : Int) 0) ++
    (List.range 32).map (fun x => xy_to_led (x : Int) 7)).filterMap id).mergeSort
    (fun a b => decide (a ≤ b))

/-- Function `get_text_area_leds` (lines 132-140): the sorted non-`None`
values of `xy_to_led x y` for `y` in `range(1, 7)`, `x` in `range(32)`. -/
def get_text_area_leds : List Int :=
  ((List.range 6).flatMap (fun yi =>
    (List.range 32).filterMap (fun x =>
      xy_to_led (x : Int) ((1 + yi : Nat) : Int)))).mergeSort
    (fun a b => decide (a ≤ b))

/-- The script's `text` variable. -/
def text : String := "MERRY CHRISTMAS"

/-- The script's `bitmap` variable. -/
def bitmap : List String := create_text_bitmap text

/-- The script's `text_width` variable: `len(bitmap[0])`. -/
def text_width : Nat := (bitmap.headD "").length

/-- The script's `scroll_speed_ms` constant (120 ms per column). -/
def scroll_speed_ms : Nat := 120

/-- The scroll loop (lines 181-208): for each `x_offset` it appends a
`clear` frame for the leds that went out and a `set` frame (color
`#FF0000`) for the leds that came on, both at the current time — each
only when its led set is non-empty — then advances the clock by
`scroll_speed_ms` and carries the new led set forward.  Python's sets
become `Finset Int`; `sorted(list(s))` becomes `Finset.sort`. -/
def scroll_frames : List Int → Nat → Finset Int → List Frame
  | [], _, _ => []
  | x_offset :: rest, current_time, prev_text_leds =>
      let text_leds := (bitmap_to_led_indices bitmap x_offset).toFinset
      let leds_to_clear := prev_text_leds \ text_leds
      let leds_to_set := text_leds \ prev_text_leds
      (if leds_to_clear ≠ ∅ then
        [⟨current_time, "clear", none, some (leds_to_clear.sort (· ≤ ·))⟩]
       else []) ++
      (if leds_to_set ≠ ∅ then
        [⟨current_time, "set", some "#FF0000", some (leds_to_set.sort (· ≤ ·))⟩]
       else []) ++
      scroll_frames rest (current_time + scroll_speed_ms) text_leds

/-- The scroll offsets `range(-32, text_width + 1)`. -/
def offsets : List Int :=
  (List.range (text_width + 33)).map (fun i => (i : Int) - 32)

/-- The complete `frames` list of the script: the two initial frames at
time 0 (green borders, black text area), then the scroll loop starting
at `current_time = scroll_speed_ms` with an empty previous-led set. -/
def frames : List Frame :=
  [⟨0, "set", some "#00FF00", some get_border_leds⟩,
   ⟨0, "set", some "#000000", some get_text_area_leds⟩] ++
  scroll_frames offsets scroll_speed_ms ∅

end CreateMerryChristmasScrolling

namespace CreateBruceLightshow

/-- Lines 193-204 of `src/create_bruce_lightshow.py` (identical to lines
211-222 of `src/scripts/create_bruce_lightshow.py`): sort the frames by
`timestampMs` (Python's stable sort becomes `mergeSort`), then walk the
reversed list keeping only the first occurrence of each timestamp (the
`seen_times` set becomes a list of seen timestamps), and reverse back. -/
def unique_frames (frames : List Frame) : List Frame :=
  (((frames.mergeSort (fun a b => decide (a.timestampMs ≤ b.timestampMs))).reverse.foldl
      (fun acc frame =>
        if frame.timestampMs ∈ acc.2 then acc
        else (acc.1 ++ [frame], frame.timestampMs :: acc.2))
      (([] : List Frame), ([] : List Nat))).1).reverse

/-- Recursive presentation of the deduplication pass: keep the first
frame for each not-yet-seen timestamp. -/
def keepFirstByTime : List Frame → List Nat → List Frame
  | [], _ => []
  | f :: rest, seen =>
      if f.timestampMs ∈ seen then keepFirstByTime rest seen
      else f :: keepFirstByTime rest (f.timestampMs :: seen)

end CreateBruceLightshow

/-- The serpentine index formula common to the three `xy_to_led`
definitions, written as in the specification: `x * 8 + y` for even
columns and `x * 8 + (7 - y)` for odd columns. -/
def serpentineIndex (x y : Int) : Int :=
  if x % 2 = 0 then x * 8 + y else x * 8 + (7 - y)

/-- C1.  On the whole logical grid the three serpentine mappers compute
`x * 8 + y` for even `x` and `x * 8 + (7 - y)` for odd `x`, and the
result lies in `[0, 256)`. -/
theorem C1_xy_to_led_serpentine (x y : Int)
    (hx0 : 0 ≤ x) (hx : x < 32) (hy0 : 0 ≤ y) (hy : y < 8) :
    CreateMerryChristmasScrolling.xy_to_led x y = some (serpentineIndex x y) ∧
    CreateWizardsLightshow.xy_to_led x y = serpentineIndex x y ∧
    CreateWizardsV5Bold.xy_to_led x y = serpentineIndex x y ∧
    0 ≤ serpentineIndex x y ∧ serpentineIndex x y < 256 := by
  unfold CreateMerryChristmasScrolling.xy_to_led CreateWizardsLightshow.xy_to_led
    CreateWizardsV5Bold.xy_to_led serpentineIndex
  have hnot : ¬ (x < 0 ∨ 32 ≤ x ∨ y < 0 ∨ 8 ≤ y) := by omega
  rw [if_neg hnot, if_neg hnot]
  by_cases hpar : x % 2 = 0
  · rw [if_pos hpar, if_pos hpar, if_pos hpar]
    exact ⟨rfl, rfl, rfl, by omega, by omega⟩
  · rw [if_neg hpar, if_neg hpar, if_neg hpar]
    refine ⟨by norm_num, by norm_num, by norm_num, by omega, by omega⟩

/-- Witness for C1 at the concrete coordinates (2, 3) — an even column. -/
theorem C1_xy_to_led_serpentine_witness :
    CreateMerryChristmasScrolling.xy_to_led 2 3 = some (serpentineIndex 2 3) ∧
    CreateWizardsLightshow.xy_to_led 2 3 = serpentineIndex 2 3 ∧
    CreateWizardsV5Bold.xy_to_led 2 3 = serpentineIndex 2 3 ∧
    0 ≤ serpentineIndex 2 3 ∧ serpentineIndex 2 3 < 256 :=
  C1_xy_to_led_serpentine 2 3 (by norm_num) (by norm_num) (by norm_num) (by norm_num)

/-- C2 counterexample.  At logical coordinates (x, y) = (0, 1) the
row-major formula `row * 32 + col` gives 32 while the serpentine
`xy_to_led` gives 1, and `led_to_xy` applied to the serpentine index 1
returns (1, 0), not (0, 1): the row-major tools and `led_to_xy` do not
implement the serpentine mapping. -/
theorem C2_counterexample :
    some (LedMatrixTest.pixel_index 1 0) ≠
      CreateMerryChristmasScrolling.xy_to_led 0 1 ∧
    CreateMerryChristmasScrolling.xy_to_led 0 1 = some 1 ∧
    AnalyzePattern.led_to_xy 1 ≠ (0, 1) := by
  refine ⟨?_, ?_, ?_⟩ <;> decide

/-- C2 as amended.  The row-major mapping `row * 32 + col` used by
`bitmap_to_leds` and by the row/column test loops is its own consistent
coordinate scheme whose inverse is `led_to_xy`
(`led_to_xy (row * 32 + x) = (x, row)` on the grid), but it is a
different mapping from the serpentine `xy_to_led`: the two agree only at
the single point (0, 0).  The conjunct on `bitmap_to_leds` exhibits that
it emits exactly the row-major index. -/
theorem C2_row_major_vs_serpentine (x y : Int)
    (hx0 : 0 ≤ x) (hx : x < 32) (hy0 : 0 ≤ y) (hy : y < 8) :
    AnalyzePattern.led_to_xy (LedMatrixTest.pixel_index y x) = (x, y) ∧
    (CreateMerryChristmasScrolling.xy_to_led x y =
        some (LedMatrixTest.pixel_index y x) ↔ x = 0 ∧ y = 0) ∧
    CreateScrollingText.bitmap_to_leds ["1"] 0 =
      [LedMatrixTest.pixel_index 1 0] := by
  have hbm : CreateScrollingText.bitmap_to_leds ["1"] 0 =
      [LedMatrixTest.pixel_index 1 0] := by
    show List.mergeSort [32] (fun a b => decide (a ≤ b)) = [32]
    exact List.mergeSort_singleton 32
  refine ⟨?_, ?_, hbm⟩
  · unfold AnalyzePattern.led_to_xy LedMatrixTest.pixel_index
    have h1 : (y * 32 + x) % 32 = x := by omega
    have h2 : (y * 32 + x) / 32 = y := by omega
    rw [h1, h2]
  · unfold CreateMerryChristmasScrolling.xy_to_led LedMatrixTest.pixel_index
    have hnot : ¬ (x < 0 ∨ 32 ≤ x ∨ y < 0 ∨ 8 ≤ y) := by omega
    rw [if_neg hnot]
    by_cases hpar : x % 2 = 0
    · rw [if_pos hpar]
      constructor
      · intro h
        have : x * 8 + y = y * 32 + x := by
          simpa using h
        omega
      · rintro ⟨rfl, rfl⟩
        norm_num
    · rw [if_neg hpar]
      constructor
      · intro h
        have : x * 8 + (8 - 1 - y) = y * 32 + x := by
          simpa using h
        omega
      · rintro ⟨rfl, rfl⟩
        exact absurd rfl hpar

/-- Witness for the amended C2 at the concrete coordinates (3, 2). -/
theorem C2_row_major_vs_serpentine_witness :
    AnalyzePattern.led_to_xy (LedMatrixTest.pixel_index 2 3) = (3, 2) ∧
    (CreateMerryChristmasScrolling.xy_to_led 3 2 =
        some (LedMatrixTest.pixel_index 2 3) ↔ (3 : Int) = 0 ∧ (2 : Int) = 0) ∧
    CreateScrollingText.bitmap_to_leds ["1"] 0 =
      [LedMatrixTest.pixel_index 1 0] :=
  C2_row_major_vs_serpentine 3 2 (by norm_num) (by norm_num) (by norm_num) (by norm_num)

namespace LedDriverScript

theorem set_pixels_num_leds (entries : List PixelEntry) :
    ∀ d : LedDriver, (d.set_pixels entries).num_leds = d.num_leds := by
  induction entries with
  | nil => intro d; rfl
  | cons e rest ih =>
    intro d
    simp only [LedDriver.set_pixels]
    rw [ih]
    split <;> rfl

theorem set_pixels_pixels_length (entries : List PixelEntry) :
    ∀ d : LedDriver, (d.set_pixels entries).pixels.length = d.pixels.length := by
  induction entries with
  | nil => intro d; rfl
  | cons e rest ih =>
    intro d
    simp only [LedDriver.set_pixels]
    rw [ih]
    split <;> simp

theorem lastWrite_nil (i : Nat) : lastWrite [] i = none := rfl

theorem lastWrite_cons (e : PixelEntry) (rest : List PixelEntry) (i : Nat) :
    lastWrite (e :: rest) i =
      (lastWrite rest i).or
        (if e.index.getD (-1) = (i : Int) then some e else none) := by
  unfold lastWrite
  rw [List.reverse_cons, List.find?_append]
  congr 1
  by_cases hp : e.index.getD (-1) = (i : Int)
  · simp [List.find?, hp]
  · simp [List.find?, hp]

/-- Main characterization of `set_pixels`: slot `i` of the resulting
buffer holds the color of the last entry that names `i`, or its old
value when no entry names it. -/
theorem set_pixels_getElem? (entries : List PixelEntry) :
    ∀ d : LedDriver, d.pixels.length = d.num_leds →
      ∀ i : Nat, i < d.pixels.length →
        (d.set_pixels entries).pixels[i]? =
          (match lastWrite entries i with
           | some e => some (entryColor e)
           | none => d.pixels[i]?) := by
  induction entries with
  | nil =>
    intro d hlen i hi
    simp [LedDriver.set_pixels, lastWrite]
  | cons e rest ih =>
    intro d hlen i hi
    have hstep : d.set_pixels (e :: rest) =
        LedDriver.set_pixels (if 0 ≤ e.index.getD (-1) ∧ e.index.getD (-1) < (d.num_leds : Int) then { d with pixels := d.pixels.set (e.index.getD (-1)).toNat (entryColor e) } else d) rest := rfl
    rw [hstep, lastWrite_cons]
    by_cases hrange : 0 ≤ e.index.getD (-1) ∧ e.index.getD (-1) < (d.num_leds : Int)
    · rw [if_pos hrange]
      have hlen' : ({ d with pixels := d.pixels.set (e.index.getD (-1)).toNat (entryColor e) } : LedDriver).pixels.length = d.pixels.length := List.length_set d.pixels _ _
      rw [ih { d with pixels := d.pixels.set (e.index.getD (-1)).toNat (entryColor e) } (by rw [hlen']; exact hlen) i (by rw [hlen']; exact hi)]
      cases hlw : lastWrite rest i with
      | some e' => rfl
      | none =>
        by_cases heq : e.index.getD (-1) = (i : Int)
        · rw [if_pos heq]
          show (d.pixels.set (e.index.getD (-1)).toNat (entryColor e))[i]? = some (entryColor e)
          have htn : (e.index.getD (-1)).toNat = i := by omega
          rw [htn]
          exact List.getElem?_set_self hi
        · rw [if_neg heq]
          show (d.pixels.set (e.index.getD (-1)).toNat (entryColor e))[i]? = d.pixels[i]?
          have htn : (e.index.getD (-1)).toNat ≠ i := by omega
          exact List.getElem?_set_ne htn
    · rw [if_neg hrange]
      rw [ih d hlen i hi]
      cases hlw : lastWrite rest i with
      | some e' => rfl
      | none =>
        have heq : ¬ e.index.getD (-1) = (i : Int) := by
          intro h
          apply hrange
          constructor
          · omega
          · rw [h, ← hlen]
            exact_mod_cast hi
        rw [if_neg heq]
        rfl

/-- In a mapped entry list where entry `j` carries index `j`, the last
write to slot `i` is the canonical entry for `i` iff `i` is listed. -/
theorem find?_map_mk (i : Nat) (r g b : Option Int) :
    ∀ M : List Int,
      (M.map (fun j => (⟨some j, r, g, b⟩ : PixelEntry))).find?
          (fun e => decide (e.index.getD (-1) = (i : Int))) =
        if (i : Int) ∈ M then some ⟨some (i : Int), r, g, b⟩ else none := by
  intro M
  induction M with
  | nil => rfl
  | cons j M ih =>
    by_cases hj : j = (i : Int)
    · subst hj
      simp [List.find?]
    · simp only [List.map_cons, List.find?]
      have hd : (decide ((⟨some j, r, g, b⟩ : PixelEntry).index.getD (-1) = (i : Int))) = false := by
        simpa using hj
      rw [hd, ih]
      have hj' : ¬ ((i : Int) = j) := fun h => hj h.symm
      simp [List.mem_cons, hj']

theorem lastWrite_map_mk (L : List Int) (i : Nat) (r g b : Option Int) :
    lastWrite (L.map (fun j => (⟨some j, r, g, b⟩ : PixelEntry))) i =
      if (i : Int) ∈ L then some ⟨some (i : Int), r, g, b⟩ else none := by
  unfold lastWrite
  rw [← List.map_reverse, find?_map_mk]
  simp [List.mem_reverse]

end LedDriverScript

/-- C4.  A `fill` command sets all 256 pixel-buffer slots to `(r, g, b)`
and answers with status `"ok"`. -/
theorem C4_fill_command (r g b : Int) (d : LedDriverScript.LedDriver)
    (hlen : d.pixels.length = 256) :
    (d.process_command ⟨some "fill", none, some r, some g, some b, none⟩).1.pixels
        = List.replicate 256 (r, g, b) ∧
    (d.process_command ⟨some "fill", none, some r, some g, some b, none⟩).2.status
        = "ok" := by
  constructor
  · show (d.fill_all r g b).pixels = _
    unfold LedDriverScript.LedDriver.fill_all
    rw [List.map_const', hlen]
  · rfl

/-- Witness for C4 on the all-black 256-pixel driver with color (1, 2, 3). -/
theorem C4_fill_command_witness :
    ((⟨256, List.replicate 256 (0, 0, 0)⟩ : LedDriverScript.LedDriver).process_command
        ⟨some "fill", none, some 1, some 2, some 3, none⟩).1.pixels
        = List.replicate 256 (1, 2, 3) ∧
    ((⟨256, List.replicate 256 (0, 0, 0)⟩ : LedDriverScript.LedDriver).process_command
        ⟨some "fill", none, some 1, some 2, some 3, none⟩).2.status = "ok" :=
  C4_fill_command 1 2 3 _ (List.length_replicate 256 (0, 0, 0))

/-- C5.  `set_pixels` preserves the buffer length, and slot `i` of the
result holds the color of the last entry naming index `i` (entries are
applied in list order, so the later entry wins), while slots named by no
entry keep their previous color. -/
theorem C5_set_pixels_last_write_wins (d : LedDriverScript.LedDriver)
    (entries : List LedDriverScript.PixelEntry)
    (hlen : d.pixels.length = d.num_leds) :
    (d.set_pixels entries).pixels.length = d.pixels.length ∧
    (∀ i : Nat, i < d.pixels.length →
      (d.set_pixels entries).pixels[i]? =
        (match LedDriverScript.lastWrite entries i with
         | some e => some (LedDriverScript.entryColor e)
         | none => d.pixels[i]?)) :=
  ⟨LedDriverScript.set_pixels_pixels_length entries d,
   fun i hi => LedDriverScript.set_pixels_getElem? entries d hlen i hi⟩

/-- Witness for C5: two entries both naming slot 0; the second (color 7)
wins, and slot 1 is untouched. -/
theorem C5_set_pixels_last_write_wins_witness :
    ((⟨2, [((0 : Int), (0 : Int), (0 : Int)), (4, 4, 4)]⟩ :
        LedDriverScript.LedDriver).set_pixels
        [⟨some 0, some 5, some 5, some 5⟩,
         ⟨some 0, some 7, some 7, some 7⟩]).pixels[0]? = some (7, 7, 7) ∧
    ((⟨2, [((0 : Int), (0 : Int), (0 : Int)), (4, 4, 4)]⟩ :
        LedDriverScript.LedDriver).set_pixels
        [⟨some 0, some 5, some 5, some 5⟩,
         ⟨some 0, some 7, some 7, some 7⟩]).pixels[1]? = some (4, 4, 4) := by
  have h := C5_set_pixels_last_write_wins
    ⟨2, [((0 : Int), (0 : Int), (0 : Int)), (4, 4, 4)]⟩
    [⟨some 0, some 5, some 5, some 5⟩, ⟨some 0, some 7, some 7, some 7⟩]
    (by rfl)
  constructor
  · rw [h.2 0 (by simp)]
    rfl
  · rw [h.2 1 (by simp)]
    rfl

/-- C6.  Starting from the all-black 256-pixel buffer, setting color `c`
on a list of valid indices and then setting `(0, 0, 0)` on the same
indices returns the buffer to all-black. -/
theorem C6_set_then_clear_roundtrip (L : List Int) (c : LedDriverScript.Color)
    (hL : ∀ i ∈ L, 0 ≤ i ∧ i < 256) :
    (((⟨256, List.replicate 256 (0, 0, 0)⟩ :
        LedDriverScript.LedDriver).set_pixels
          (L.map (fun j => ⟨some j, some c.1, some c.2.1, some c.2.2⟩))).set_pixels
          (L.map (fun j => ⟨some j, some 0, some 0, some 0⟩))).pixels
      = List.replicate 256 ((0 : Int), (0 : Int), (0 : Int)) := by
  have hpix0 : (⟨256, List.replicate 256 (0, 0, 0)⟩ :
      LedDriverScript.LedDriver).pixels = List.replicate 256 ((0 : Int), (0 : Int), (0 : Int)) := rfl
  have hnum0 : (⟨256, List.replicate 256 (0, 0, 0)⟩ :
      LedDriverScript.LedDriver).num_leds = 256 := rfl
  have hlen0 : (⟨256, List.replicate 256 (0, 0, 0)⟩ :
      LedDriverScript.LedDriver).pixels.length = (⟨256, List.replicate 256 (0, 0, 0)⟩ :
      LedDriverScript.LedDriver).num_leds := by
    rw [hpix0, hnum0, List.length_replicate]
  have hlen1 : ((⟨256, List.replicate 256 (0, 0, 0)⟩ :
      LedDriverScript.LedDriver).set_pixels
        (L.map (fun j => ⟨some j, some c.1, some c.2.1, some c.2.2⟩))).pixels.length
      = (⟨256, List.replicate 256 (0, 0, 0)⟩ :
      LedDriverScript.LedDriver).pixels.length :=
    LedDriverScript.set_pixels_pixels_length _ _
  have hnum1 : ((⟨256, List.replicate 256 (0, 0, 0)⟩ :
      LedDriverScript.LedDriver).set_pixels
        (L.map (fun j => ⟨some j, some c.1, some c.2.1, some c.2.2⟩))).num_leds
      = (⟨256, List.replicate 256 (0, 0, 0)⟩ :
      LedDriverScript.LedDriver).num_leds :=
    LedDriverScript.set_pixels_num_leds _ _
  have hL256 : (⟨256, List.replicate 256 (0, 0, 0)⟩ :
      LedDriverScript.LedDriver).pixels.length = 256 := by
    rw [hpix0, List.length_replicate]
  have hlen1' : ((⟨256, List.replicate 256 (0, 0, 0)⟩ :
      LedDriverScript.LedDriver).set_pixels
        (L.map (fun j => ⟨some j, some c.1, some c.2.1, some c.2.2⟩))).pixels.length
      = ((⟨256, List.replicate 256 (0, 0, 0)⟩ :
      LedDriverScript.LedDriver).set_pixels
        (L.map (fun j => ⟨some j, some c.1, some c.2.1, some c.2.2⟩))).num_leds := by
    rw [hlen1, hnum1]
    exact hlen0
  have hlen2 : (((⟨256, List.replicate 256 (0, 0, 0)⟩ :
      LedDriverScript.LedDriver).set_pixels
        (L.map (fun j => ⟨some j, some c.1, some c.2.1, some c.2.2⟩))).set_pixels
        (L.map (fun j => ⟨some j, some 0, some 0, some 0⟩))).pixels.length = 256 := by
    rw [LedDriverScript.set_pixels_pixels_length, hlen1, hL256]
  apply List.ext_getElem?
  intro n
  by_cases hn : n < 256
  · rw [LedDriverScript.set_pixels_getElem? _ _ hlen1' n (by rw [hlen1, hL256]; exact hn)]
    rw [LedDriverScript.lastWrite_map_mk]
    by_cases hmem : (n : Int) ∈ L
    · rw [if_pos hmem]
      rw [List.getElem?_replicate, if_pos hn]
      rfl
    · rw [if_neg hmem]
      rw [LedDriverScript.set_pixels_getElem? _ _ hlen0 n (by rw [hL256]; exact hn)]
      rw [LedDriverScript.lastWrite_map_mk, if_neg hmem]
  · rw [List.getElem?_eq_none (by rw [hlen2]; omega),
      List.getElem?_eq_none (by rw [List.length_replicate]; omega)]

/-- Witness for C6 with indices [0, 5] and color (9, 9, 9). -/
theorem C6_set_then_clear_roundtrip_witness :
    (((⟨256, List.replicate 256 (0, 0, 0)⟩ :
        LedDriverScript.LedDriver).set_pixels
          ([0, 5].map (fun j => ⟨some j, some (9 : Int), some 9, some 9⟩))).set_pixels
          ([0, 5].map (fun j => ⟨some j, some 0, some 0, some 0⟩))).pixels
      = List.replicate 256 ((0 : Int), (0 : Int), (0 : Int)) :=
  C6_set_then_clear_roundtrip [0, 5] (9, 9, 9) (by decide)

/-- C7.  `process_command` answers status `"ok"` exactly for the six
known command names, and any other `command` field gets status
`"error"` with a message naming the unknown command. -/
theorem C7_process_command_status (d : LedDriverScript.LedDriver)
    (c : LedDriverScript.Cmd) :
    ((d.process_command c).2.status = "ok" ↔
        c.command ∈ LedDriverScript.knownCommands) ∧
    (c.command ∉ LedDriverScript.knownCommands →
      (d.process_command c).2.status = "error" ∧
      (d.process_command c).2.message =
        some ("Unknown command: " ++ LedDriverScript.cmdTypeStr c.command)) := by
  unfold LedDriverScript.LedDriver.process_command
  split_ifs with h1 h2 h3 h4 h5 h6 <;>
    simp_all [LedDriverScript.knownCommands, LedDriverScript.okResp]

/-- Witness for C7: the unknown command name "party" yields the error
response with the naming message. -/
theorem C7_process_command_status_witness :
    ((⟨0, []⟩ : LedDriverScript.LedDriver).process_command
        ⟨some "party", none, none, none, none, none⟩).2.status = "error" ∧
    ((⟨0, []⟩ : LedDriverScript.LedDriver).process_command
        ⟨some "party", none, none, none, none, none⟩).2.message =
      some ("Unknown command: " ++ LedDriverScript.cmdTypeStr (some "party")) :=
  (C7_process_command_status ⟨0, []⟩
    ⟨some "party", none, none, none, none, none⟩).2 (by decide)

/-- C9.  A `set_pixel` command whose index lies outside [0, 256) leaves
the driver (in particular the whole pixel buffer) unchanged and still
answers with the ok response for `set_pixel`. -/
theorem C9_set_pixel_out_of_range (d : LedDriverScript.LedDriver)
    (idx r g b : Int) (hnum : d.num_leds = 256)
    (hidx : idx < 0 ∨ 256 ≤ idx) :
    d.process_command ⟨some "set_pixel", some idx, some r, some g, some b, none⟩
      = (d, LedDriverScript.okResp "set_pixel") := by
  show (d.set_pixel idx r g b, LedDriverScript.okResp "set_pixel") = _
  unfold LedDriverScript.LedDriver.set_pixel
  rw [if_neg]
  rw [hnum]
  omega

/-- Witness for C9 at index 300 on a 256-LED driver. -/
theorem C9_set_pixel_out_of_range_witness :
    (⟨256, List.replicate 256 (0, 0, 0)⟩ :
        LedDriverScript.LedDriver).process_command
        ⟨some "set_pixel", some 300, some 1, some 2, some 3, none⟩
      = (⟨256, List.replicate 256 (0, 0, 0)⟩, LedDriverScript.okResp "set_pixel") :=
  C9_set_pixel_out_of_range _ 300 1 2 3 rfl (by omega)

/-- C10.  A malformed (invalid-JSON) line makes the main loop emit
exactly one error response carrying the decode message, keep the pixel
buffer (the whole driver state) unchanged, and continue with the
remaining lines. -/
theorem C10_malformed_line_continues (d : LedDriverScript.LedDriver)
    (err : String) (rest : List LedDriverScript.Line) :
    LedDriverScript.mainLoop d (LedDriverScript.Line.malformed err :: rest)
      = (LedDriverScript.invalidJsonResp err ::
          (LedDriverScript.mainLoop d rest).1,
         (LedDriverScript.mainLoop d rest).2) ∧
    (LedDriverScript.invalidJsonResp err).status = "error" := by
  constructor
  · rfl
  · rfl

theorem mem_ite_singleton {α : Type} {P : Prop} [Decidable P] {a b : α}
    (h : a ∈ (if P then [b] else ([] : List α))) : a = b := by
  split at h
  · simpa using h
  · cases h

namespace CreateMerryChristmasScrolling

theorem xy_to_led_valid {x y l : Int} (h : xy_to_led x y = some l) :
    0 ≤ l ∧ l < 256 := by
  unfold xy_to_led at h
  split_ifs at h with h1 h2
  · injection h with h'
    omega
  · injection h with h'
    omega

theorem bitmap_to_led_indices_valid (lines : List String) (x_offset : Int) :
    ∀ led ∈ bitmap_to_led_indices lines x_offset, 0 ≤ led ∧ led < 256 := by
  intro led h
  unfold bitmap_to_led_indices at h
  rw [List.mem_mergeSort] at h
  simp only [List.mem_flatMap, List.mem_filterMap] at h
  obtain ⟨rowp, _, colp, _, h⟩ := h
  split_ifs at h with hc hr
  exact xy_to_led_valid h

theorem get_border_leds_valid :
    ∀ led ∈ get_border_leds, 0 ≤ led ∧ led < 256 := by
  intro led h
  unfold get_border_leds at h
  rw [List.mem_mergeSort] at h
  simp only [List.mem_filterMap, List.mem_append, List.mem_map, List.mem_range,
    id_eq] at h
  obtain ⟨o, ho, rfl⟩ := h
  rcases ho with ⟨x, _, hx⟩ | ⟨x, _, hx⟩ <;> exact xy_to_led_valid hx

theorem get_text_area_leds_valid :
    ∀ led ∈ get_text_area_leds, 0 ≤ led ∧ led < 256 := by
  intro led h
  unfold get_text_area_leds at h
  rw [List.mem_mergeSort] at h
  simp only [List.mem_flatMap, List.mem_filterMap, List.mem_range] at h
  obtain ⟨yi, _, x, _, hx⟩ := h
  exact xy_to_led_valid hx

theorem scroll_frames_time_le (offs : List Int) :
    ∀ (t : Nat) (prev : Finset Int) (f : Frame),
      f ∈ scroll_frames offs t prev → t ≤ f.timestampMs := by
  induction offs with
  | nil =>
    intro t prev f h
    cases h
  | cons off rest ih =>
    intro t prev f h
    simp only [scroll_frames, List.mem_append] at h
    rcases h with (h | h) | h
    · rw [mem_ite_singleton h]
    · rw [mem_ite_singleton h]
    · exact Nat.le_trans (Nat.le_add_right t _) (ih _ _ f h)

theorem scroll_frames_sorted (offs : List Int) :
    ∀ (t : Nat) (prev : Finset Int),
      (scroll_frames offs t prev).Pairwise
        (fun a b => a.timestampMs ≤ b.timestampMs) := by
  induction offs with
  | nil =>
    intro t prev
    simp [scroll_frames]
  | cons off rest ih =>
    intro t prev
    simp only [scroll_frames]
    rw [List.pairwise_append]
    refine ⟨?_, ih _ _, ?_⟩
    · rw [List.pairwise_append]
      refine ⟨by split_ifs <;> simp, by split_ifs <;> simp, ?_⟩
      intro a ha b hb
      rw [mem_ite_singleton ha, mem_ite_singleton hb]
    · intro a ha b hb
      rw [List.mem_append] at ha
      rcases ha with ha | ha <;> rw [mem_ite_singleton ha] <;>
        exact scroll_frames_time_le rest _ _ b hb |>.trans' (Nat.le_add_right t _)

theorem scroll_frames_leds_valid (offs : List Int) :
    ∀ (t : Nat) (prev : Finset Int), (∀ l ∈ prev, 0 ≤ l ∧ l < 256) →
      ∀ f ∈ scroll_frames offs t prev, ∀ led ∈ f.leds.getD [],
        0 ≤ led ∧ led < 256 := by
  induction offs with
  | nil =>
    intro t prev _ f hf
    cases hf
  | cons off rest ih =>
    intro t prev hprev f hf
    simp only [scroll_frames, List.mem_append] at hf
    rcases hf with (hf | hf) | hf
    · rw [mem_ite_singleton hf]
      intro led hled
      simp only [Option.getD_some] at hled
      rw [Finset.mem_sort] at hled
      exact hprev led (Finset.mem_sdiff.mp hled).1
    · rw [mem_ite_singleton hf]
      intro led hled
      simp only [Option.getD_some] at hled
      rw [Finset.mem_sort] at hled
      have hmem := (Finset.mem_sdiff.mp hled).1
      rw [List.mem_toFinset] at hmem
      exact bitmap_to_led_indices_valid bitmap off led hmem
    · refine ih _ _ ?_ f hf
      intro l hl
      rw [List.mem_toFinset] at hl
      exact bitmap_to_led_indices_valid bitmap off l hl

end CreateMerryChristmasScrolling

/-- C8.  The Merry Christmas scrolling generator emits its frames in
non-decreasing `timestampMs` order, and every led index in any frame
lies in the valid range [0, 256). -/
theorem C8_merry_christmas_show_invariants :
    CreateMerryChristmasScrolling.frames.Pairwise
      (fun a b => a.timestampMs ≤ b.timestampMs) ∧
    ∀ f ∈ CreateMerryChristmasScrolling.frames, ∀ led ∈ f.leds.getD [],
      0 ≤ led ∧ led < 256 := by
  constructor
  · unfold CreateMerryChristmasScrolling.frames
    rw [List.pairwise_append]
    refine ⟨by simp, CreateMerryChristmasScrolling.scroll_frames_sorted _ _ _, ?_⟩
    intro a ha b hb
    have hat : a.timestampMs = 0 := by
      simp only [List.mem_cons, List.not_mem_nil, or_false] at ha
      rcases ha with ha | ha <;> rw [ha]
    have hbt := CreateMerryChristmasScrolling.scroll_frames_time_le _ _ _ b hb
    omega
  · intro f hf
    unfold CreateMerryChristmasScrolling.frames at hf
    rw [List.mem_append] at hf
    rcases hf with hf | hf
    · simp only [List.mem_cons, List.not_mem_nil, or_false] at hf
      rcases hf with hf | hf
      · rw [hf]
        intro led hled
        simp only [Option.getD_some] at hled
        exact CreateMerryChristmasScrolling.get_border_leds_valid led hled
      · rw [hf]
        intro led hled
        simp only [Option.getD_some] at hled
        exact CreateMerryChristmasScrolling.get_text_area_leds_valid led hled
    · refine CreateMerryChristmasScrolling.scroll_frames_leds_valid _ _ _ ?_ f hf
      intro l hl
      cases Finset.not_mem_empty l hl

namespace CreateBruceLightshow

theorem foldl_dedup_eq (l : List Frame) :
    ∀ (acc : List Frame) (seen : List Nat),
      (l.foldl
          (fun acc frame =>
            if frame.timestampMs ∈ acc.2 then acc
            else (acc.1 ++ [frame], frame.timestampMs :: acc.2))
          (acc, seen)).1
        = acc ++ keepFirstByTime l seen := by
  induction l with
  | nil =>
    intro acc seen
    simp [keepFirstByTime]
  | cons f rest ih =>
    intro acc seen
    rw [List.foldl_cons]
    dsimp only
    by_cases h : f.timestampMs ∈ seen
    · rw [if_pos h, ih]
      simp only [keepFirstByTime]
      rw [if_pos h]
    · rw [if_neg h, ih]
      simp only [keepFirstByTime]
      rw [if_neg h, List.append_assoc]
      rfl

theorem unique_frames_eq (fs : List Frame) :
    unique_frames fs =
      (keepFirstByTime
        ((fs.mergeSort (fun a b => decide (a.timestampMs ≤ b.timestampMs))).reverse)
        []).reverse := by
  unfold unique_frames
  rw [foldl_dedup_eq]
  rw [List.nil_append]

theorem keepFirstByTime_sublist (l : List Frame) :
    ∀ seen : List Nat, List.Sublist (keepFirstByTime l seen) l := by
  induction l with
  | nil =>
    intro seen
    exact List.Sublist.refl []
  | cons f rest ih =>
    intro seen
    rw [keepFirstByTime]
    split_ifs with h
    · exact (ih seen).cons f
    · exact (ih (f.timestampMs :: seen)).cons₂ f

theorem keepFirstByTime_not_seen (l : List Frame) :
    ∀ (seen : List Nat) (f : Frame), f ∈ keepFirstByTime l seen →
      f.timestampMs ∉ seen := by
  induction l with
  | nil =>
    intro seen f h
    cases h
  | cons g rest ih =>
    intro seen f h
    rw [keepFirstByTime] at h
    split_ifs at h with hg
    · exact ih seen f h
    · rw [List.mem_cons] at h
      rcases h with rfl | h
      · exact hg
      · have := ih _ f h
        intro hc
        exact this (List.mem_cons_of_mem _ hc)

theorem keepFirstByTime_pairwise_ne (l : List Frame) :
    ∀ seen : List Nat,
      (keepFirstByTime l seen).Pairwise
        (fun a b => a.timestampMs ≠ b.timestampMs) := by
  induction l with
  | nil =>
    intro seen
    exact List.Pairwise.nil
  | cons g rest ih =>
    intro seen
    rw [keepFirstByTime]
    split_ifs with hg
    · exact ih seen
    · refine List.pairwise_cons.mpr ⟨?_, ih _⟩
      intro b hb
      have := keepFirstByTime_not_seen rest _ b hb
      intro hc
      exact this (by rw [← hc]; exact List.mem_cons_self _ _)

theorem keepFirstByTime_complete (l : List Frame) :
    ∀ (seen : List Nat) (t : Nat), (∃ f ∈ l, f.timestampMs = t) →
      t ∈ seen ∨ ∃ f ∈ keepFirstByTime l seen, f.timestampMs = t := by
  induction l with
  | nil =>
    intro seen t h
    obtain ⟨f, hf, _⟩ := h
    cases hf
  | cons g rest ih =>
    intro seen t h
    obtain ⟨f, hf, hft⟩ := h
    rw [keepFirstByTime]
    rw [List.mem_cons] at hf
    split_ifs with hg
    · rcases hf with rfl | hf
      · exact Or.inl (hft ▸ hg)
      · exact ih seen t ⟨f, hf, hft⟩
    · rcases hf with rfl | hf
      · exact Or.inr ⟨f, List.mem_cons_self _ _, hft⟩
      · rcases ih (g.timestampMs :: seen) t ⟨f, hf, hft⟩ with hs | ⟨f', hf', hft'⟩
        · rw [List.mem_cons] at hs
          rcases hs with rfl | hs
          · exact Or.inr ⟨g, List.mem_cons_self _ _, rfl⟩
          · exact Or.inl hs
        · exact Or.inr ⟨f', List.mem_cons_of_mem _ hf', hft'⟩

theorem frame_le_trans : ∀ a b c : Frame,
    (fun a b : Frame => decide (a.timestampMs ≤ b.timestampMs)) a b →
    (fun a b : Frame => decide (a.timestampMs ≤ b.timestampMs)) b c →
    (fun a b : Frame => decide (a.timestampMs ≤ b.timestampMs)) a c := by
  intro a b c hab hbc
  simp only [decide_eq_true_eq] at hab hbc ⊢
  omega

theorem frame_le_total : ∀ a b : Frame,
    ((fun a b : Frame => decide (a.timestampMs ≤ b.timestampMs)) a b ||
     (fun a b : Frame => decide (a.timestampMs ≤ b.timestampMs)) b a) := by
  intro a b
  simp only [Bool.or_eq_true, decide_eq_true_eq]
  omega

theorem find?_eq_head?_filter {α : Type} (p : α → Bool) :
    ∀ l : List α, l.find? p = (l.filter p).head? := by
  intro l
  induction l with
  | nil => rfl
  | cons a l ih =>
    cases hpa : p a with
    | true =>
      rw [List.find?_cons_of_pos l hpa, List.filter_cons_of_pos hpa]
      rfl
    | false =>
      rw [List.find?_cons_of_neg l (by simp [hpa]),
        List.filter_cons_of_neg (by simp [hpa]), ih]

theorem keepFirstByTime_find? (l : List Frame) :
    ∀ (seen : List Nat) (f : Frame), f ∈ keepFirstByTime l seen →
      l.find? (fun g => decide (g.timestampMs = f.timestampMs)) = some f := by
  induction l with
  | nil =>
    intro seen f h
    cases h
  | cons g rest ih =>
    intro seen f h
    rw [keepFirstByTime] at h
    split_ifs at h with hg
    · have hne : ¬ (g.timestampMs = f.timestampMs) := by
        intro hc
        exact (keepFirstByTime_not_seen rest seen f h) (hc ▸ hg)
      rw [List.find?_cons_of_neg rest (by simpa using hne)]
      exact ih seen f h
    · rw [List.mem_cons] at h
      rcases h with rfl | h
      · rw [List.find?_cons_of_pos rest (by simp)]
      · have hne : ¬ (g.timestampMs = f.timestampMs) := by
          intro hc
          have := keepFirstByTime_not_seen rest _ f h
          exact this (by rw [← hc]; exact List.mem_cons_self _ _)
        rw [List.find?_cons_of_neg rest (by simpa using hne)]
        exact ih _ f h

theorem filter_mergeSort_eq_filter (fs : List Frame) (t : Nat) :
    (fs.mergeSort (fun a b => decide (a.timestampMs ≤ b.timestampMs))).filter
        (fun g => decide (g.timestampMs = t))
      = fs.filter (fun g => decide (g.timestampMs = t)) := by
  have hall : ∀ a ∈ fs.filter (fun g => decide (g.timestampMs = t)),
      (fun g : Frame => decide (g.timestampMs = t)) a :=
    fun a ha => (List.mem_filter.mp ha).2
  have hpair : (fs.filter (fun g => decide (g.timestampMs = t))).Pairwise
      (fun a b : Frame => decide (a.timestampMs ≤ b.timestampMs)) := by
    apply List.pairwise_of_forall_mem_list
    intro a ha b hb
    have ha' := (List.mem_filter.mp ha).2
    have hb' := (List.mem_filter.mp hb).2
    simp only [decide_eq_true_eq] at ha' hb' ⊢
    omega
  have hstable := List.sublist_mergeSort frame_le_trans frame_le_total hpair
    (List.filter_sublist fs)
  have h1 : List.Sublist (fs.filter (fun g => decide (g.timestampMs = t)))
      ((fs.mergeSort (fun a b => decide (a.timestampMs ≤ b.timestampMs))).filter
        (fun g => decide (g.timestampMs = t))) := by
    have h2 := hstable.filter (fun g => decide (g.timestampMs = t))
    rwa [List.filter_eq_self.mpr hall] at h2
  have hperm2 := (List.mergeSort_perm fs
    (fun a b => decide (a.timestampMs ≤ b.timestampMs))).filter
    (fun g => decide (g.timestampMs = t))
  exact (h1.eq_of_length hperm2.length_eq.symm).symm

theorem unique_frames_keeps_last (fs : List Frame) :
    ∀ f ∈ unique_frames fs,
      (fs.filter (fun g => decide (g.timestampMs = f.timestampMs))).getLast?
        = some f := by
  intro f hf
  rw [unique_frames_eq, List.mem_reverse] at hf
  have h1 := keepFirstByTime_find? _ [] f hf
  rw [find?_eq_head?_filter, List.filter_reverse, List.head?_reverse,
    filter_mergeSort_eq_filter] at h1
  exact h1

end CreateBruceLightshow

/-- C3 counterexample.  Two frames sharing `timestampMs = 0` — exactly
the shape the generator appends (an initial fill and a beat effect at
the same tick) — go through the sort-and-deduplicate pipeline and only
the later-appended one survives: the earlier `fill` frame is dropped, so
the written show does not contain every appended effect. -/
theorem C3_counterexample :
    CreateBruceLightshow.unique_frames
        [⟨0, "fill", some "#000000", none⟩, ⟨0, "set", some "#CC0000", some [0]⟩]
      = [⟨0, "set", some "#CC0000", some [0]⟩] ∧
    (⟨0, "fill", some "#000000", none⟩ : Frame) ∉
      CreateBruceLightshow.unique_frames
        [⟨0, "fill", some "#000000", none⟩, ⟨0, "set", some "#CC0000", some [0]⟩] := by
  have hs : ([⟨0, "fill", some "#000000", none⟩,
        ⟨0, "set", some "#CC0000", some [0]⟩] : List Frame).mergeSort
        (fun a b => decide (a.timestampMs ≤ b.timestampMs))
      = [⟨0, "fill", some "#000000", none⟩, ⟨0, "set", some "#CC0000", some [0]⟩] :=
    List.mergeSort_of_sorted (by decide)
  rw [CreateBruceLightshow.unique_frames_eq, hs]
  constructor
  · rfl
  · decide

/-- C3 as amended.  The sort-and-deduplicate pipeline emits frames in
strictly increasing `timestampMs` order; every emitted frame is one of
the appended frames; every timestamp that occurs among the appended
frames still occurs in the output; and for each timestamp exactly one of
the frames sharing it is kept, namely the last-appended one (the last
element, in append order, of the equal-timestamp group). -/
theorem C3_sorted_dedup (fs : List Frame) :
    (CreateBruceLightshow.unique_frames fs).Pairwise
      (fun a b => a.timestampMs < b.timestampMs) ∧
    (∀ f ∈ CreateBruceLightshow.unique_frames fs, f ∈ fs) ∧
    (∀ t : Nat, (∃ f ∈ fs, f.timestampMs = t) ↔
      ∃ f ∈ CreateBruceLightshow.unique_frames fs, f.timestampMs = t) ∧
    (∀ f ∈ CreateBruceLightshow.unique_frames fs,
      (fs.filter (fun g => decide (g.timestampMs = f.timestampMs))).getLast?
        = some f) := by
  have hperm := List.mergeSort_perm fs
    (fun a b => decide (a.timestampMs ≤ b.timestampMs))
  have hsorted : (fs.mergeSort
      (fun a b => decide (a.timestampMs ≤ b.timestampMs))).Pairwise
      (fun a b => a.timestampMs ≤ b.timestampMs) := by
    have h := List.sorted_mergeSort CreateBruceLightshow.frame_le_trans
      CreateBruceLightshow.frame_le_total fs
    exact h.imp (by intro a b hab; simpa using hab)
  have hrev : ((fs.mergeSort
      (fun a b => decide (a.timestampMs ≤ b.timestampMs))).reverse).Pairwise
      (fun a b => b.timestampMs ≤ a.timestampMs) :=
    List.pairwise_reverse.mpr hsorted
  have hsub := CreateBruceLightshow.keepFirstByTime_sublist
    ((fs.mergeSort (fun a b => decide (a.timestampMs ≤ b.timestampMs))).reverse) []
  have hkept_le : (CreateBruceLightshow.keepFirstByTime
      ((fs.mergeSort (fun a b => decide (a.timestampMs ≤ b.timestampMs))).reverse)
      []).Pairwise (fun a b => b.timestampMs ≤ a.timestampMs) :=
    hrev.sublist hsub
  have hkept_ne := CreateBruceLightshow.keepFirstByTime_pairwise_ne
    ((fs.mergeSort (fun a b => decide (a.timestampMs ≤ b.timestampMs))).reverse) []
  have hmem_fs : ∀ f ∈ CreateBruceLightshow.unique_frames fs, f ∈ fs := by
    intro f hf
    rw [CreateBruceLightshow.unique_frames_eq, List.mem_reverse] at hf
    have h1 := hsub.subset hf
    rw [List.mem_reverse, List.mem_mergeSort] at h1
    exact h1
  refine ⟨?_, hmem_fs, ?_, CreateBruceLightshow.unique_frames_keeps_last fs⟩
  · rw [CreateBruceLightshow.unique_frames_eq]
    rw [List.pairwise_reverse]
    exact (hkept_le.and hkept_ne).imp (by intro a b hab; omega)
  · intro t
    constructor
    · intro h
      obtain ⟨f, hf, hft⟩ := h
      have h1 : f ∈ (fs.mergeSort
          (fun a b => decide (a.timestampMs ≤ b.timestampMs))).reverse := by
        rw [List.mem_reverse, List.mem_mergeSort]
        exact hf
      rcases CreateBruceLightshow.keepFirstByTime_complete _ [] t ⟨f, h1, hft⟩ with
        hc | ⟨f', hf', hft'⟩
      · cases hc
      · exact ⟨f', by rw [CreateBruceLightshow.unique_frames_eq, List.mem_reverse]; exact hf', hft'⟩
    · intro h
      obtain ⟨f, hf, hft⟩ := h
      exact ⟨f, hmem_fs f hf, hft⟩

/-- Witness for the amended C3 on a one-frame list: timestamp 0 occurs
in the input, so some output frame carries timestamp 0. -/
theorem C3_sorted_dedup_witness :
    ∃ f ∈ CreateBruceLightshow.unique_frames
      [⟨0, "fill", some "#000000", none⟩], f.timestampMs = 0 :=
  ((C3_sorted_dedup [⟨0, "fill", some "#000000", none⟩]).2.2.1 0).mp
    ⟨⟨0, "fill", some "#000000", none⟩, by simp, rfl⟩

end Nutcracker
